import Mathlib

/-!
Verification of the negotiation decision core of the Negotiation-Agent
repository (Python backend).  Python strings are modelled as lists of
characters (`Str`); Python `int` as `ℤ`; Python float literals such as
`1.1` are modelled by their exact rational values, and Python `int(x)`
truncation-toward-zero by `pyInt`.  Each definition is a direct
translation of the corresponding function in `src/backend`.
-/

/-- Model of a Python string: a list of characters. -/
abbrev Str := List Char

/-- Embed a Lean string literal into the model. -/
def lit (s : String) : Str := s.toList

/-- Python `str.lower()` (the repository only uses ASCII text). -/
def lowerS (s : Str) : Str := s.map Char.toLower

/-- Python `str.startswith`: `isPre n h` is true when `n` is a prefix of `h`. -/
def isPre : Str → Str → Bool
  | [], _ => true
  | _ :: _, [] => false
  | a :: n, b :: h => a == b && isPre n h

/-- Python substring test `n in h` (contiguous substring). -/
def hasSub (n : Str) : Str → Bool
  | [] => isPre n []
  | c :: t => isPre n (c :: t) || hasSub n t

/-- Python `any(word in text for word in words)`. -/
def containsAny (ws : List Str) (h : Str) : Bool := ws.any fun w => hasSub w h

/-- Python `" ".join(pieces)`. -/
def joinSpace : List Str → Str
  | [] => []
  | [x] => x
  | x :: xs => x ++ lit " " ++ joinSpace xs

/-- Python slice `l[-k:]` (for `k > 0`). -/
def lastN (k : Nat) (l : List α) : List α := l.drop (l.length - k)

/-- Python `int(x)` applied to a real value: truncation toward zero. -/
def pyInt (q : ℚ) : ℤ := if 0 ≤ q then ⌊q⌋ else ⌈q⌉

theorem pyInt_mono {q r : ℚ} (h : q ≤ r) : pyInt q ≤ pyInt r := by
  unfold pyInt
  by_cases hq : 0 ≤ q
  · rw [if_pos hq, if_pos (hq.trans h)]
    exact Int.floor_mono h
  · rw [if_neg hq]
    by_cases hr : 0 ≤ r
    · rw [if_pos hr]
      have h1 : ⌈q⌉ ≤ (0 : ℤ) := Int.ceil_le.mpr (by exact_mod_cast le_of_not_le hq)
      have h2 : (0 : ℤ) ≤ ⌊r⌋ := Int.le_floor.mpr (by exact_mod_cast hr)
      exact h1.trans h2
    · rw [if_neg hr]
      exact Int.ceil_mono h

theorem le_pyInt {t : ℤ} {q : ℚ} (h0 : 0 ≤ q) (h : (t : ℚ) ≤ q) : t ≤ pyInt q := by
  unfold pyInt
  rw [if_pos h0]
  exact Int.le_floor.mpr h

/-!
`PriceCalculatorTool._run` (src/backend/langchain_agent.py, lines 77-99):

    if negotiation_round <= 2:
        offer = int(target_price * 1.1)
    elif negotiation_round <= 4:
        offer = int((target_price + current_price) * 0.6)
    else:
        offer = int(min(max_budget * 0.95, (target_price + current_price) * 0.7))
    offer = max(target_price, min(offer, max_budget))
-/

/-- The raw (pre-clamp) staged offer of `PriceCalculatorTool._run`. -/
def priceCalculatorRaw (currentPrice targetPrice maxBudget : ℤ) (negotiationRound : ℕ) : ℤ :=
  if negotiationRound ≤ 2 then
    pyInt ((targetPrice : ℚ) * (11 / 10))
  else if negotiationRound ≤ 4 then
    pyInt (((targetPrice + currentPrice : ℤ) : ℚ) * (6 / 10))
  else
    pyInt (min ((maxBudget : ℚ) * (19 / 20)) (((targetPrice + currentPrice : ℤ) : ℚ) * (7 / 10)))

/-- The offer returned by `PriceCalculatorTool._run`: staged value clamped to
`[target_price, max_budget]`. -/
def priceCalculatorRun (currentPrice targetPrice maxBudget : ℤ) (negotiationRound : ℕ) : ℤ :=
  max targetPrice (min (priceCalculatorRaw currentPrice targetPrice maxBudget negotiationRound) maxBudget)

/-- C1: for every `target_price ≤ max_budget`, every listed price and every
round `≥ 1`, the computed offer satisfies
`target_price ≤ offer ≤ max_budget`, and when `target_price = max_budget`
the offer is exactly that single value. -/
theorem priceCalculator_offer_within_bounds
    (currentPrice targetPrice maxBudget : ℤ) (negotiationRound : ℕ)
    (htb : targetPrice ≤ maxBudget) (_hround : 1 ≤ negotiationRound) :
    targetPrice ≤ priceCalculatorRun currentPrice targetPrice maxBudget negotiationRound ∧
      priceCalculatorRun currentPrice targetPrice maxBudget negotiationRound ≤ maxBudget ∧
      (targetPrice = maxBudget →
        priceCalculatorRun currentPrice targetPrice maxBudget negotiationRound = targetPrice) := by
  refine ⟨le_max_left _ _, max_le htb (min_le_right _ _), fun heq => ?_⟩
  subst heq
  exact max_eq_left (min_le_right _ _)

theorem priceCalculator_offer_within_bounds_witness :
    (45000 : ℤ) ≤ 55000 ∧ 1 ≤ 1 ∧
      ((45000 : ℤ) ≤ priceCalculatorRun 60000 45000 55000 1 ∧
        priceCalculatorRun 60000 45000 55000 1 ≤ 55000 ∧
        ((45000 : ℤ) = 55000 → priceCalculatorRun 60000 45000 55000 1 = 45000)) :=
  ⟨by decide, by decide,
    priceCalculator_offer_within_bounds 60000 45000 55000 1 (by decide) (by decide)⟩

/-- C3 counterexample: with target 45000, budget 55000 and listed price
60000 (the spec's own scenario-1 inputs, which satisfy
`target_price < max_budget`), the middle-stage offer (round 3) is 55000
while the closing-stage offer (round 5) is only 52250, so the stage
offers are not monotonically non-decreasing. -/
theorem offer_stage_monotonicity_cex :
    priceCalculatorRun 60000 45000 55000 3 = 55000 ∧
      priceCalculatorRun 60000 45000 55000 5 = 52250 ∧
      ¬(priceCalculatorRun 60000 45000 55000 3 ≤ priceCalculatorRun 60000 45000 55000 5) ∧
      (45000 : ℤ) < 55000 := by
  norm_num [priceCalculatorRun, priceCalculatorRaw, pyInt]

/-- C3 (amended): for `0 ≤ target_price < max_budget`, the opening-,
middle- and closing-stage offers of `PriceCalculatorTool._run` are
monotonically non-decreasing provided the listed price is large enough
that the middle-stage raw offer is at least the opening raw offer
(`11·t ≤ 6·(t+c)`) and small enough that the middle-stage raw offer does
not exceed the closing stage's budget cap (`12·(t+c) ≤ 19·b`). -/
theorem offer_stage_monotone_amended
    (currentPrice targetPrice maxBudget : ℤ) (r1 r2 r3 : ℕ)
    (ht : 0 ≤ targetPrice) (_htb : targetPrice < maxBudget)
    (h12 : 11 * targetPrice ≤ 6 * (targetPrice + currentPrice))
    (h23 : 12 * (targetPrice + currentPrice) ≤ 19 * maxBudget)
    (hr1 : r1 ≤ 2) (hr2l : 3 ≤ r2) (hr2r : r2 ≤ 4) (hr3 : 5 ≤ r3) :
    priceCalculatorRun currentPrice targetPrice maxBudget r1 ≤
        priceCalculatorRun currentPrice targetPrice maxBudget r2 ∧
      priceCalculatorRun currentPrice targetPrice maxBudget r2 ≤
        priceCalculatorRun currentPrice targetPrice maxBudget r3 := by
  have hcast : ((targetPrice + currentPrice : ℤ) : ℚ) = (targetPrice : ℚ) + (currentPrice : ℚ) := by
    push_cast; ring
  have h12Q : (11 : ℚ) * targetPrice ≤ 6 * ((targetPrice : ℚ) + currentPrice) := by
    exact_mod_cast h12
  have htQ : (0 : ℚ) ≤ (targetPrice : ℚ) := by exact_mod_cast ht
  have htcQ : (0 : ℚ) ≤ (targetPrice : ℚ) + currentPrice := by linarith
  have hQ1 : (targetPrice : ℚ) * (11 / 10) ≤ ((targetPrice + currentPrice : ℤ) : ℚ) * (6 / 10) := by
    rw [hcast]; linarith
  have hQ2 : ((targetPrice + currentPrice : ℤ) : ℚ) * (6 / 10) ≤
      min ((maxBudget : ℚ) * (19 / 20)) (((targetPrice + currentPrice : ℤ) : ℚ) * (7 / 10)) := by
    refine le_min ?_ ?_
    · have h23Q : (12 : ℚ) * ((targetPrice : ℚ) + currentPrice) ≤ 19 * maxBudget := by
        exact_mod_cast h23
      rw [hcast]; linarith
    · rw [hcast]
      nlinarith [htcQ]
  have hraw12 : priceCalculatorRaw currentPrice targetPrice maxBudget r1 ≤
      priceCalculatorRaw currentPrice targetPrice maxBudget r2 := by
    unfold priceCalculatorRaw
    rw [if_pos hr1, if_neg (show ¬r2 ≤ 2 by omega), if_pos hr2r]
    exact pyInt_mono hQ1
  have hraw23 : priceCalculatorRaw currentPrice targetPrice maxBudget r2 ≤
      priceCalculatorRaw currentPrice targetPrice maxBudget r3 := by
    unfold priceCalculatorRaw
    rw [if_neg (show ¬r2 ≤ 2 by omega), if_pos hr2r, if_neg (show ¬r3 ≤ 2 by omega),
      if_neg (show ¬r3 ≤ 4 by omega)]
    exact pyInt_mono hQ2
  exact ⟨max_le_max le_rfl (min_le_min hraw12 le_rfl),
    max_le_max le_rfl (min_le_min hraw23 le_rfl)⟩

theorem offer_stage_monotone_amended_witness :
    (0 : ℤ) ≤ 45000 ∧ (45000 : ℤ) < 70000 ∧
      (11 * 45000 : ℤ) ≤ 6 * (45000 + 60000) ∧ (12 * (45000 + 60000) : ℤ) ≤ 19 * 70000 ∧
      (priceCalculatorRun 60000 45000 70000 1 ≤ priceCalculatorRun 60000 45000 70000 3 ∧
        priceCalculatorRun 60000 45000 70000 3 ≤ priceCalculatorRun 60000 45000 70000 5) :=
  ⟨by decide, by decide, by decide, by decide,
    offer_stage_monotone_amended 60000 45000 70000 1 3 5 (by decide) (by decide) (by decide)
      (by decide) (by decide) (by decide) (by decide) (by decide)⟩

theorem isPre_append {n h h2 : Str} (hp : isPre n h = true) : isPre n (h ++ h2) = true := by
  induction n generalizing h with
  | nil => simp [isPre]
  | cons a nt ih =>
    cases h with
    | nil => simp [isPre] at hp
    | cons b t =>
      simp [isPre] at hp ⊢
      exact ⟨hp.1, ih hp.2⟩

theorem hasSub_append_right {n h h2 : Str} (hs : hasSub n h = true) : hasSub n (h ++ h2) = true := by
  induction h with
  | nil =>
    have hn : n = [] := by
      cases n with
      | nil => rfl
      | cons a t => simp [hasSub, isPre] at hs
    subst hn
    cases h2 <;> simp [hasSub, isPre]
  | cons c t ih =>
    simp only [hasSub, Bool.or_eq_true] at hs ⊢
    rcases hs with hs | hs
    · exact Or.inl (isPre_append hs)
    · exact Or.inr (ih hs)

theorem hasSub_append_left {n h : Str} (h1 : Str) (hs : hasSub n h = true) :
    hasSub n (h1 ++ h) = true := by
  induction h1 with
  | nil => exact hs
  | cons a t ih =>
    simp only [List.cons_append, hasSub, Bool.or_eq_true]
    exact Or.inr ih

theorem hasSub_joinSpace {n : Str} {pieces : List Str} {p : Str}
    (hmem : p ∈ pieces) (hs : hasSub n p = true) :
    hasSub n (joinSpace pieces) = true := by
  induction pieces with
  | nil => simp at hmem
  | cons x xs ih =>
    cases xs with
    | nil =>
      have hp : p = x := by simpa using hmem
      subst hp
      simpa [joinSpace] using hs
    | cons y ys =>
      rcases List.mem_cons.mp hmem with rfl | hmem2
      · show hasSub n ((p ++ lit " ") ++ joinSpace (y :: ys)) = true
        exact hasSub_append_right (hasSub_append_right hs)
      · show hasSub n ((x ++ lit " ") ++ joinSpace (y :: ys)) = true
        exact hasSub_append_left _ (ih hmem2)

/-!
`EnhancedAIService._determine_phase` (src/backend/enhanced_ai_service.py,
lines 400-421): the chat history is modelled as the list of its message
contents (the source reads `msg.content` of each message).
-/

/-- The lowered text joined from the last three history messages plus the
current message, as built by `_determine_phase`. -/
def recentCombined (chatHistory : List Str) (currentMessage : Str) : Str :=
  joinSpace ((lastN 3 chatHistory).map lowerS ++ [lowerS currentMessage])

/-- `EnhancedAIService._determine_phase`. -/
def determinePhase (chatHistory : List Str) (currentMessage : Str) : Str :=
  if chatHistory = [] then lit "opening"
  else if hasSub (lit "final") (recentCombined chatHistory currentMessage) ||
      hasSub (lit "last") (recentCombined chatHistory currentMessage) then lit "closing"
  else if hasSub (lit "counter") (recentCombined chatHistory currentMessage) ||
      chatHistory.length > 3 then lit "bargaining"
  else if chatHistory.length ≤ 2 then lit "opening"
  else lit "negotiation"

/-- C4 counterexample: with an empty chat history the classifier returns
`"opening"` before ever looking at the current message, even when the
current inbound seller message is `"final offer, last price"`. -/
theorem determine_phase_empty_history_cex :
    determinePhase [] (lit "final offer, last price") = lit "opening" ∧
      lit "opening" ≠ lit "closing" := by
  decide

/-- C4 (amended): for every non-empty chat history and current message, if
any of the last three history messages or the current message contains
`"final"` or `"last"` (lower-cased), the classifier returns `"closing"`,
taking precedence over the bargaining message-count rule. -/
theorem closing_lexicon_precedence (chatHistory : List Str) (currentMessage : Str)
    (hne : chatHistory ≠ [])
    (hlex : ∃ m ∈ (lastN 3 chatHistory).map lowerS ++ [lowerS currentMessage],
      (hasSub (lit "final") m || hasSub (lit "last") m) = true) :
    determinePhase chatHistory currentMessage = lit "closing" := by
  obtain ⟨m, hmem, hm⟩ := hlex
  have hm2 : hasSub (lit "final") m = true ∨ hasSub (lit "last") m = true := by
    simpa using hm
  have hcomb : (hasSub (lit "final") (recentCombined chatHistory currentMessage) ||
      hasSub (lit "last") (recentCombined chatHistory currentMessage)) = true := by
    rcases hm2 with h | h
    · simp [recentCombined, hasSub_joinSpace hmem h]
    · simp [recentCombined, hasSub_joinSpace hmem h]
  unfold determinePhase
  rw [if_neg hne, if_pos hcomb]

theorem closing_lexicon_precedence_witness :
    ([lit "hello", lit "is it available", lit "yes it is", lit "what price",
        lit "I can offer 40000"] ≠ ([] : List Str)) ∧
      determinePhase
        [lit "hello", lit "is it available", lit "yes it is", lit "what price",
          lit "I can offer 40000"] (lit "final offer, last price") = lit "closing" :=
  ⟨by decide,
    closing_lexicon_precedence _ _ (by decide) (by decide)⟩

/-!
`NegotiationStrategyTool._run` (src/backend/langchain_agent.py, lines
118-171).  The `strategies` dictionary built from the phase argument is
never read when computing the returned tactics, so the phase parameter
does not influence the result; it is kept to mirror the signature.
-/

def urgencyIndicators : List Str :=
  [lit "final", lit "last", lit "deadline", lit "urgent", lit "today only"]

def flexibilityIndicators : List Str :=
  [lit "consider", lit "negotiate", lit "discuss", lit "flexible"]

def aggressiveTactics : List Str :=
  [lit "anchoring", lit "alternative_options", lit "market_comparison"]

def collaborativeTactics : List Str :=
  [lit "reciprocal_concessions", lit "value_proposition", lit "rapport_building"]

def closingTactics : List Str :=
  [lit "final_offer", lit "commitment_seeking", lit "minor_concessions"]

/-- The tactics list returned by `NegotiationStrategyTool._run`. -/
def negotiationStrategyTactics (sellerMessage : Str) (_negotiationPhase : Str)
    (priceDifference : ℤ) : List Str :=
  let sellerLower := lowerS sellerMessage
  let isUrgent := containsAny urgencyIndicators sellerLower
  let isFlexible := containsAny flexibilityIndicators sellerLower
  let tactics :=
    if priceDifference > 30 then aggressiveTactics
    else if priceDifference > 15 then collaborativeTactics
    else closingTactics
  let tactics := if isUrgent then tactics ++ [lit "deadline_leverage"] else tactics
  if isFlexible then tactics ++ [lit "creative_solutions"] else tactics

/-- C8 counterexample: at a price gap of exactly 15 (claimed to belong to
the collaborative 15-30 bucket) the tool returns the closing-posture
tactics, because the source checks `price_difference > 15` strictly. -/
theorem tactic_selector_gap15_cex :
    negotiationStrategyTactics (lit "Hello") (lit "bargaining") 15 = closingTactics ∧
      closingTactics ≠ collaborativeTactics := by
  decide

/-- C8 (amended): gap > 30 yields the aggressive tactics, 15 < gap ≤ 30
the collaborative tactics, and gap ≤ 15 the closing tactics (gap 15
itself falls in the closing bucket); `deadline_leverage` is appended
exactly when an urgency-lexicon token occurs in the seller message and
`creative_solutions` when a flexibility-lexicon token occurs. -/
theorem tactic_selector_policy (sellerMessage phase : Str) (priceDifference : ℤ) :
    (containsAny urgencyIndicators (lowerS sellerMessage) = false →
      containsAny flexibilityIndicators (lowerS sellerMessage) = false →
        ((30 < priceDifference →
            negotiationStrategyTactics sellerMessage phase priceDifference = aggressiveTactics) ∧
          (15 < priceDifference → priceDifference ≤ 30 →
            negotiationStrategyTactics sellerMessage phase priceDifference = collaborativeTactics) ∧
          (priceDifference ≤ 15 →
            negotiationStrategyTactics sellerMessage phase priceDifference = closingTactics))) ∧
      (containsAny urgencyIndicators (lowerS sellerMessage) = true →
        lit "deadline_leverage" ∈ negotiationStrategyTactics sellerMessage phase priceDifference) ∧
      (containsAny flexibilityIndicators (lowerS sellerMessage) = true →
        lit "creative_solutions" ∈ negotiationStrategyTactics sellerMessage phase priceDifference) := by
  refine ⟨fun hu hf => ⟨fun h30 => ?_, fun h15 h30 => ?_, fun h15 => ?_⟩,
    fun hu => ?_, fun hf => ?_⟩
  · simp [negotiationStrategyTactics, hu, hf, h30]
  · simp [negotiationStrategyTactics, hu, hf, h15, show ¬(30 < priceDifference) by omega]
  · simp [negotiationStrategyTactics, hu, hf,
      show ¬(30 < priceDifference) by omega, show ¬(15 < priceDifference) by omega]
  · simp only [negotiationStrategyTactics, hu]
    split_ifs <;> simp
  · simp only [negotiationStrategyTactics, hf]
    split_ifs <;> simp

theorem tactic_selector_policy_witness :
    containsAny urgencyIndicators (lowerS (lit "This is my final offer, but I am flexible")) =
        true ∧
      containsAny flexibilityIndicators
          (lowerS (lit "This is my final offer, but I am flexible")) = true ∧
      lit "deadline_leverage" ∈
        negotiationStrategyTactics (lit "This is my final offer, but I am flexible")
          (lit "bargaining") 20 ∧
      lit "creative_solutions" ∈
        negotiationStrategyTactics (lit "This is my final offer, but I am flexible")
          (lit "bargaining") 20 :=
  ⟨by decide, by decide,
    (tactic_selector_policy (lit "This is my final offer, but I am flexible")
        (lit "bargaining") 20).2.1 (by decide),
    (tactic_selector_policy (lit "This is my final offer, but I am flexible")
        (lit "bargaining") 20).2.2 (by decide)⟩

/-!
Seller-behaviour analysis inside
`LangChainNegotiationAgent.generate_negotiation_response`
(src/backend/langchain_agent.py, lines 304-347).  A chat-history message
is modelled as a `(sender, content)` pair; the source formats the last
six messages as `f"{sender}: {content}"` and runs the sentiment/tactics
analysis only on entries that start with the capitalised prefix
`"Seller:"`, while the rest of the backend stores senders in lower case
(`msg.sender == "seller"` in enhanced_ai_service.py and
gemini_service.py).
-/

def rejectionKeywords : List Str :=
  [lit "no", lit "can\x27t", lit "impossible", lit "too low", lit "minimum", lit "sorry"]

def acceptanceKeywords : List Str :=
  [lit "okay", lit "yes", lit "agreed", lit "fine", lit "deal", lit "accept"]

def considerationKeywords : List Str :=
  [lit "maybe", lit "consider", lit "think", lit "possible", lit "let me"]

def ultimatumKeywords : List Str := [lit "final", lit "last", lit "best", lit "lowest"]

def counterKeywords : List Str := [lit "counter", lit "what about", lit "how about"]

/-- The `conversation_flow` entries: the last six messages, each formatted
as `sender: content`. -/
def conversationFlow (chatHistory : List (Str × Str)) : List Str :=
  (lastN 6 chatHistory).map fun m => m.1 ++ lit ": " ++ m.2

/-- One iteration of the seller-behaviour loop: state is the pair
(current sentiment, accumulated tactic tags). -/
def analyzeSellerMessage (st : Str × List Str) (msg : Str) : Str × List Str :=
  if isPre (lit "Seller:") msg then
    let contentLower := lowerS msg
    if containsAny rejectionKeywords contentLower then
      (lit "resistant", st.2 ++ [lit "rejection"])
    else if containsAny acceptanceKeywords contentLower then
      (lit "agreeable", st.2 ++ [lit "acceptance"])
    else if containsAny considerationKeywords contentLower then
      (lit "open", st.2 ++ [lit "consideration"])
    else if containsAny ultimatumKeywords contentLower then
      (st.1, st.2 ++ [lit "ultimatum"])
    else if containsAny counterKeywords contentLower then
      (st.1, st.2 ++ [lit "counter_offer"])
    else st
  else st

/-- The seller sentiment and tactic tags computed over the conversation
flow, starting from `("neutral", [])`. -/
def sellerBehavior (chatHistory : List (Str × Str)) : Str × List Str :=
  (conversationFlow chatHistory).foldl analyzeSellerMessage (lit "neutral", [])

/-- C7: with the repository's lower-case sender convention, a conversation
containing the seller message `"Sorry, that's too low, minimum is firm"`
is analysed as sentiment `"neutral"` with no tactic tags, because the
formatted entry `"seller: ..."` never matches the case-sensitive prefix
check `msg.startswith("Seller:")`; with a capitalised `"Seller"` sender
the very same message would yield `("resistant", ["rejection"])`. -/
theorem seller_analysis_neutral_on_firm_rejection :
    sellerBehavior [(lit "seller", lit "Sorry, that\x27s too low, minimum is firm")] =
        (lit "neutral", []) ∧
      sellerBehavior [(lit "Seller", lit "Sorry, that\x27s too low, minimum is firm")] =
        (lit "resistant", [lit "rejection"]) ∧
      (lit "neutral", ([] : List Str)) ≠ (lit "resistant", [lit "rejection"]) := by
  decide

/-!
`GeminiOnlyService._get_fallback_response` (src/backend/gemini_service.py,
lines 322-402).  The function receives only `approach`, `target_price`,
`chat_history` and `product`; `max_budget` is not passed in.  Every
template of every branch interpolates either `target_price` itself, the
bumped counter offer `min(int(target_price * 1.15), target_price + 5000)`
(rejection branch), or no number at all (acceptance, logistics and
condition branches; the condition template is a plain string whose
`{target_price:,}` braces are never interpolated).  The approach argument
selects wording only, never the interpolated number, so it is omitted
from this numeric projection of the function.
-/

/-- The bumped-up counter offer of the rejection/firm-price branch. -/
def counterOfferBump (targetPrice : ℤ) : ℤ :=
  min (pyInt ((targetPrice : ℚ) * (23 / 20))) (targetPrice + 5000)

/-- The numeric offer interpolated into the fallback template chosen by
`_get_fallback_response` (`none` when the chosen template embeds no
offer). -/
def getFallbackResponseOffer (targetPrice : ℤ) (chatHistory : List (Str × Str)) : Option ℤ :=
  match (chatHistory.filter fun m => m.1 == lit "seller").getLast? with
  | none => some targetPrice
  | some m =>
    let lastMessage := lowerS m.2
    if hasSub (lit "hi") lastMessage || hasSub (lit "hello") lastMessage ||
        hasSub (lit "available") lastMessage then some targetPrice
    else if hasSub (lit "price") lastMessage || hasSub (lit "cost") lastMessage ||
        hasSub (lit "amount") lastMessage then some targetPrice
    else if hasSub (lit "no") lastMessage || hasSub (lit "cannot") lastMessage ||
        hasSub (lit "firm") lastMessage || hasSub (lit "minimum") lastMessage then
      some (counterOfferBump targetPrice)
    else if hasSub (lit "yes") lastMessage || hasSub (lit "okay") lastMessage ||
        hasSub (lit "accept") lastMessage || hasSub (lit "deal") lastMessage then none
    else if hasSub (lit "meet") lastMessage || hasSub (lit "pickup") lastMessage ||
        hasSub (lit "delivery") lastMessage then none
    else if hasSub (lit "condition") lastMessage || hasSub (lit "working") lastMessage ||
        hasSub (lit "problem") lastMessage then none
    else some targetPrice

theorem fallback_offer_cases (targetPrice : ℤ) (chatHistory : List (Str × Str)) :
    getFallbackResponseOffer targetPrice chatHistory = some targetPrice ∨
      getFallbackResponseOffer targetPrice chatHistory = some (counterOfferBump targetPrice) ∨
      getFallbackResponseOffer targetPrice chatHistory = none := by
  unfold getFallbackResponseOffer
  cases (chatHistory.filter fun m => m.1 == lit "seller").getLast? with
  | none => exact Or.inl rfl
  | some m =>
    simp only
    split_ifs <;> simp

/-- C5 counterexample: with `target_price = max_budget = 100000` and the
seller message `"no"`, the rejection branch interpolates the counter
offer 105000, which exceeds the budget ceiling 100000. -/
theorem fallback_offer_exceeds_budget_cex :
    getFallbackResponseOffer 100000 [(lit "seller", lit "no")] = some 105000 ∧
      ¬((105000 : ℤ) ≤ 100000) ∧ (100000 : ℤ) ≤ 100000 := by
  refine ⟨?_, by decide, by decide⟩
  have hb : counterOfferBump 100000 = 105000 := by
    norm_num [counterOfferBump, pyInt]
  have hbr : getFallbackResponseOffer 100000 [(lit "seller", lit "no")] =
      some (counterOfferBump 100000) := by rfl
  rw [hbr, hb]

/-- C5 (amended): for `0 ≤ target_price`, every numeric offer interpolated
by `_get_fallback_response` lies in
`[target_price, min(int(target_price·1.15), target_price+5000)]`; the
upper bound is the rejection-branch counter offer, which is computed
without consulting `max_budget` and can therefore exceed it. -/
theorem fallback_offer_bounds (targetPrice : ℤ) (chatHistory : List (Str × Str)) (offer : ℤ)
    (ht : 0 ≤ targetPrice)
    (ho : getFallbackResponseOffer targetPrice chatHistory = some offer) :
    targetPrice ≤ offer ∧ offer ≤ counterOfferBump targetPrice := by
  have htQ : (0 : ℚ) ≤ (targetPrice : ℚ) := by exact_mod_cast ht
  have hge : targetPrice ≤ counterOfferBump targetPrice := by
    refine le_min ?_ (by omega)
    refine le_pyInt (by linarith) (by linarith)
  rcases fallback_offer_cases targetPrice chatHistory with h | h | h
  · rw [ho] at h
    have : offer = targetPrice := by injection h
    subst this
    exact ⟨le_refl _, hge⟩
  · rw [ho] at h
    have : offer = counterOfferBump targetPrice := by injection h
    subst this
    exact ⟨hge, le_refl _⟩
  · rw [ho] at h
    exact absurd h (by simp)

theorem fallback_offer_bounds_witness :
    (0 : ℤ) ≤ 100 ∧ getFallbackResponseOffer 100 [] = some 100 ∧
      ((100 : ℤ) ≤ 100 ∧ (100 : ℤ) ≤ counterOfferBump 100) :=
  ⟨by decide, by rfl, fallback_offer_bounds 100 [] 100 (by decide) (by rfl)⟩

/-!
`URLNegotiationRequest` (src/backend/main.py, lines 41-47): a pydantic
model whose only numeric constraints are `Field(..., gt=0)` on
`target_price` and on `max_budget`; main.py contains no cross-field
validator relating the two, and the accepted values are passed straight
into `NegotiationParams` and session creation.
-/

structure URLNegotiationRequest where
  product_url : Str
  target_price : ℤ
  max_budget : ℤ
  approach : Str
  timeline : Str

/-- Whether the request passes the pydantic field validation of
`URLNegotiationRequest`. -/
def urlNegotiationRequestAccepted (r : URLNegotiationRequest) : Bool :=
  decide (0 < r.target_price) && decide (0 < r.max_budget)

/-- C6 counterexample: a session-creation request with
`target_price = 2 > max_budget = 1` passes validation (both fields are
positive), so it is not rejected at the session-creation boundary. -/
theorem url_validation_accepts_violation_cex :
    urlNegotiationRequestAccepted
        ⟨lit "https://www.olx.in/item/1", 2, 1, lit "diplomatic", lit "flexible"⟩ = true ∧
      (1 : ℤ) < 2 := by
  decide

/-- C6 (amended): the session-creation boundary checks only that
`target_price` and `max_budget` are each positive; in particular every
request violating `target_price ≤ max_budget` (with positive prices) is
accepted, so the invariant is not enforced at session creation. -/
theorem url_request_positivity_only (r : URLNegotiationRequest)
    (hb : 0 < r.max_budget) (ht : r.max_budget < r.target_price) :
    urlNegotiationRequestAccepted r = true := by
  simp only [urlNegotiationRequestAccepted, Bool.and_eq_true, decide_eq_true_eq]
  omega

theorem url_request_positivity_only_witness :
    (0 : ℤ) < 1 ∧ (1 : ℤ) < 2 ∧
      urlNegotiationRequestAccepted
        ⟨lit "https://www.olx.in/item/2", 2, 1, lit "assertive", lit "urgent"⟩ = true :=
  ⟨by decide, by decide,
    url_request_positivity_only
      ⟨lit "https://www.olx.in/item/2", 2, 1, lit "assertive", lit "urgent"⟩
      (by decide) (by decide)⟩

/-!
`MarketIntelligence` (src/backend/scraper_service.py): the category table
(lines 639-647), `_estimate_market_value` (lines 1063-1106),
`_calculate_depreciation` (lines 1108-1123), `_analyze_pricing_patterns`
(lines 1125-1146), `_determine_market_position` (lines 1148-1161),
`_assess_negotiation_potential` (lines 1163-1173), `analyze_market_price`
(lines 712-745) and `_get_fallback_market_analysis` (lines 1175-1192).
-/

structure CategoryInfo where
  catMin : ℤ
  catMax : ℤ
  depreciation : ℚ
deriving DecidableEq

def categoryPriceRanges : List (Str × CategoryInfo) :=
  [(lit "Mobile Phones", ⟨5000, 150000, 2 / 10⟩),
    (lit "Laptops & Computers", ⟨15000, 300000, 25 / 100⟩),
    (lit "Cars", ⟨100000, 5000000, 15 / 100⟩),
    (lit "Vehicles", ⟨20000, 200000, 18 / 100⟩),
    (lit "Electronics", ⟨2000, 100000, 3 / 10⟩),
    (lit "Gaming", ⟨5000, 80000, 2 / 10⟩),
    (lit "Home & Garden", ⟨1000, 150000, 1 / 10⟩)]

/-- The `.get(category, {'min': 1000, 'max': 100000, 'depreciation': 0.2})`
default (the call sites that omit the depreciation key never read it). -/
def defaultCategoryInfo : CategoryInfo := ⟨1000, 100000, 2 / 10⟩

def categoryLookup (category : Str) : CategoryInfo :=
  ((categoryPriceRanges.find? fun p => p.1 == category).map Prod.snd).getD defaultCategoryInfo

/-- The premium-brand multiplier table, in the dict's insertion order. -/
def premiumMultipliers : List (Str × ℚ) :=
  [(lit "apple", 13 / 10), (lit "iphone", 13 / 10), (lit "macbook", 14 / 10),
    (lit "samsung", 12 / 10), (lit "sony", 12 / 10), (lit "lg", 11 / 10),
    (lit "mercedes", 15 / 10), (lit "bmw", 14 / 10), (lit "audi", 14 / 10),
    (lit "premium", 12 / 10), (lit "pro", 115 / 100), (lit "plus", 11 / 10)]

/-- The brand-keyword loop of `_estimate_market_value`: starting from
`multiplier = 1.0`, it takes `max(multiplier, mult)` for the first table
entry whose token occurs in the lowered title and then `break`s. -/
def premiumMultiplier (titleLower : Str) : ℚ :=
  match premiumMultipliers.find? fun p => hasSub p.1 titleLower with
  | some p => max 1 p.2
  | none => 1

def ageKeywords : List (Str × ℚ) :=
  [(lit "2024", 95 / 100), (lit "2023", 85 / 100), (lit "2022", 75 / 100),
    (lit "2021", 65 / 100), (lit "new", 1), (lit "old", 7 / 10), (lit "vintage", 5 / 10)]

/-- The age-keyword loop of `_estimate_market_value` (default factor 0.8). -/
def ageFactor (titleLower : Str) : ℚ :=
  match ageKeywords.find? fun p => hasSub p.1 titleLower with
  | some p => p.2
  | none => 8 / 10

/-- `MarketIntelligence._estimate_market_value`. -/
def estimateMarketValue (title category : Str) (currentPrice : ℤ) : ℤ :=
  let info := categoryLookup category
  let categoryMedian : ℚ := ((info.catMin : ℚ) + (info.catMax : ℚ)) / 2
  let titleLower := lowerS title
  let estimatedValue :=
    pyInt (categoryMedian * premiumMultiplier titleLower * ageFactor titleLower)
  let estimatedValue :=
    if info.catMin ≤ currentPrice ∧ (currentPrice : ℚ) ≤ (info.catMax : ℚ) * (3 / 2) then
      pyInt (((estimatedValue : ℚ) + (currentPrice : ℚ)) / 2)
    else estimatedValue
  max info.catMin (min estimatedValue info.catMax)

/-- `MarketIntelligence._calculate_depreciation` (current year hard-coded
to 2025 in the source; first matching year token wins). -/
def yearTokens : List (Str × ℕ) :=
  [(lit "2020", 5), (lit "2021", 4), (lit "2022", 3), (lit "2023", 2),
    (lit "2024", 1), (lit "2025", 0)]

def calculateDepreciation (title category : Str) : ℚ :=
  match yearTokens.find? fun p => hasSub p.1 (lowerS title) with
  | some p => min ((categoryLookup category).depreciation * p.2) (8 / 10)
  | none => (categoryLookup category).depreciation * 2

/-- `MarketIntelligence._analyze_pricing_patterns`. -/
def analyzePricingPatterns (currentPrice estimatedValue : ℤ) (info : CategoryInfo) : List Str :=
  let priceVsEstimate : ℚ := ((currentPrice : ℚ) - estimatedValue) / estimatedValue * 100
  let insights :=
    if priceVsEstimate > 25 then [lit "Significantly overpriced - strong negotiation potential"]
    else if priceVsEstimate > 10 then [lit "Moderately overpriced - good negotiation room"]
    else if priceVsEstimate < -10 then
      [lit "Below market value - may indicate urgency or condition issues"]
    else [lit "Reasonably priced according to market standards"]
  if (currentPrice : ℚ) < (info.catMin : ℚ) * (12 / 10) then
    insights ++ [lit "Price at lower end of category range"]
  else if (currentPrice : ℚ) > (info.catMax : ℚ) * (8 / 10) then
    insights ++ [lit "Price at higher end of category range"]
  else insights

/-- `MarketIntelligence._determine_market_position` (the fallback path
calls it with a non-integer estimate, hence the rational argument). -/
def determineMarketPosition (currentPrice : ℤ) (estimatedValue : ℚ) : Str :=
  let ratio : ℚ := if estimatedValue > 0 then (currentPrice : ℚ) / estimatedValue else 1
  if ratio > 13 / 10 then lit "premium_priced"
  else if ratio > 11 / 10 then lit "above_market"
  else if ratio < 8 / 10 then lit "below_market"
  else if ratio < 9 / 10 then lit "competitive"
  else lit "market_average"

/-- `MarketIntelligence._assess_negotiation_potential`. -/
def assessNegotiationPotential (currentPrice estimatedValue : ℤ) : ℚ :=
  if estimatedValue ≤ 0 then 15 / 100
  else min (1 / 10 + max 0 (((currentPrice : ℚ) - estimatedValue) / estimatedValue) * (5 / 10))
    (3 / 10)

structure MarketAnalysis where
  estimated_market_value : ℚ
  vs_category_min : ℚ
  vs_category_max : ℚ
  vs_estimated_value : ℚ
  depreciation_factor : ℚ
  price_insights : List Str
  market_position : Str
  negotiation_potential : ℚ

/-- The `try` body of `MarketIntelligence.analyze_market_price`; the only
statements that can raise for integer inputs are the three ratio
computations, which raise `ZeroDivisionError` when their divisor is 0. -/
def analyzeMarketPriceBody (productTitle category : Str) (currentPrice : ℤ) :
    Except Unit MarketAnalysis :=
  let info := categoryLookup category
  let est := estimateMarketValue productTitle category currentPrice
  if info.catMin = 0 ∨ info.catMax = 0 ∨ est = 0 then Except.error ()
  else
    Except.ok
      { estimated_market_value := (est : ℚ)
        vs_category_min := ((currentPrice : ℚ) - info.catMin) / info.catMin * 100
        vs_category_max := ((currentPrice : ℚ) - info.catMax) / info.catMax * 100
        vs_estimated_value := ((currentPrice : ℚ) - est) / est * 100
        depreciation_factor := calculateDepreciation productTitle category
        price_insights := analyzePricingPatterns currentPrice est info
        market_position := determineMarketPosition currentPrice (est : ℚ)
        negotiation_potential := assessNegotiationPotential currentPrice est }

/-- `MarketIntelligence._get_fallback_market_analysis` (the `except`
handler's result; division here is the total rational division of the
model — the handler itself is proved unreachable below). -/
def fallbackMarketAnalysis (currentPrice : ℤ) (category : Str) : MarketAnalysis :=
  let info := categoryLookup category
  let estimatedValue : ℚ := ((info.catMin : ℚ) + info.catMax) / 2
  { estimated_market_value := (pyInt estimatedValue : ℚ)
    vs_category_min := ((currentPrice : ℚ) - info.catMin) / info.catMin * 100
    vs_category_max := ((currentPrice : ℚ) - info.catMax) / info.catMax * 100
    vs_estimated_value := ((currentPrice : ℚ) - estimatedValue) / estimatedValue * 100
    depreciation_factor := 2 / 10
    price_insights := [lit "Market analysis based on category averages"]
    market_position := determineMarketPosition currentPrice estimatedValue
    negotiation_potential := 15 / 100 }

/-- `MarketIntelligence.analyze_market_price` with its `try`/`except`. -/
def analyzeMarketPrice (productTitle category : Str) (currentPrice : ℤ) : MarketAnalysis :=
  match analyzeMarketPriceBody productTitle category currentPrice with
  | Except.ok r => r
  | Except.error _ => fallbackMarketAnalysis currentPrice category

theorem categoryLookup_bounds (category : Str) :
    1000 ≤ (categoryLookup category).catMin ∧
      (categoryLookup category).catMin ≤ (categoryLookup category).catMax := by
  unfold categoryLookup
  cases h : categoryPriceRanges.find? fun p => p.1 == category with
  | none => decide
  | some p =>
    have hp : p ∈ categoryPriceRanges := List.mem_of_find?_eq_some h
    simp only [categoryPriceRanges, List.mem_cons, List.mem_singleton] at hp
    rcases hp with rfl | rfl | rfl | rfl | rfl | rfl | rfl | h7
    all_goals first
      | decide
      | (simp at h7)

theorem estimateMarketValue_bounds (title category : Str) (currentPrice : ℤ)
    (hmm : (categoryLookup category).catMin ≤ (categoryLookup category).catMax) :
    (categoryLookup category).catMin ≤ estimateMarketValue title category currentPrice ∧
      estimateMarketValue title category currentPrice ≤ (categoryLookup category).catMax := by
  simp only [estimateMarketValue]
  exact ⟨le_max_left _ _, max_le hmm (min_le_right _ _)⟩

/-- C9: for every product title, category string (known or not) and listed
price, `analyze_market_price` completes without raising (its `try` body
returns normally), and the estimated market value lies within the
category's `[min, max]` band (the generic 1000-100000 band for unknown
categories). -/
theorem analyzeMarketPrice_never_raises_and_in_band
    (productTitle category : Str) (currentPrice : ℤ) :
    (∃ r, analyzeMarketPriceBody productTitle category currentPrice = Except.ok r) ∧
      ((categoryLookup category).catMin : ℚ) ≤
        (analyzeMarketPrice productTitle category currentPrice).estimated_market_value ∧
      (analyzeMarketPrice productTitle category currentPrice).estimated_market_value ≤
        ((categoryLookup category).catMax : ℚ) := by
  obtain ⟨hmin, hminmax⟩ := categoryLookup_bounds category
  obtain ⟨helb, heub⟩ := estimateMarketValue_bounds productTitle category currentPrice hminmax
  have hne : ¬((categoryLookup category).catMin = 0 ∨ (categoryLookup category).catMax = 0 ∨
      estimateMarketValue productTitle category currentPrice = 0) := by
    push_neg
    omega
  have hex : ∃ r, analyzeMarketPriceBody productTitle category currentPrice = Except.ok r ∧
      r.estimated_market_value =
        ((estimateMarketValue productTitle category currentPrice : ℤ) : ℚ) := by
    simp only [analyzeMarketPriceBody]
    rw [if_neg hne]
    exact ⟨_, rfl, rfl⟩
  obtain ⟨r, hr, hemv⟩ := hex
  have hres : analyzeMarketPrice productTitle category currentPrice = r := by
    simp only [analyzeMarketPrice, hr]
  refine ⟨⟨r, hr⟩, ?_, ?_⟩
  · rw [hres, hemv]
    exact_mod_cast helb
  · rw [hres, hemv]
    exact_mod_cast heub

/-- C10: the brand-keyword loop applies at most one multiplier and stops
at the first matching token in table order: any title whose lowered text
contains `"apple"` gets multiplier 1.3, never the larger 1.4 of
`"macbook"` even when that token is also present. -/
theorem premiumMultiplier_first_match (title : Str)
    (h : hasSub (lit "apple") (lowerS title) = true) :
    premiumMultiplier (lowerS title) = 13 / 10 ∧ (13 / 10 : ℚ) ≠ 14 / 10 := by
  have hfind : premiumMultipliers.find? (fun p => hasSub p.1 (lowerS title)) =
      some (lit "apple", 13 / 10) := by
    unfold premiumMultipliers
    rw [List.find?_cons_of_pos]
    simpa using h
  refine ⟨?_, by norm_num⟩
  unfold premiumMultiplier
  rw [hfind]
  norm_num

theorem premiumMultiplier_first_match_witness :
    hasSub (lit "apple") (lowerS (lit "Apple MacBook Pro 2023")) = true ∧
      premiumMultiplier (lowerS (lit "Apple MacBook Pro 2023")) = 13 / 10 :=
  ⟨by decide, (premiumMultiplier_first_match (lit "Apple MacBook Pro 2023") (by decide)).1⟩

/-!
`EnhancedAIService.make_negotiation_decision`
(src/backend/enhanced_ai_service.py, lines 100-185), with
`_merge_gemini_enhancement` (lines 311-334), `_combine_with_mcp`
(lines 336-358, invoked with `mcp_insights = None` since MCP is disabled)
and `_fallback_decision` (lines 360-398), plus
`LangChainNegotiationAgent._parse_agent_response` and
`_get_default_value` (src/backend/langchain_agent.py, lines 421-458).

A decision dict is modelled field-wise: `none` means the key is absent,
`some v` that the key is present with value `v` (for `price_offer` the
stored value may itself be Python `None`, hence `Option (Option ℤ)`).
The outcomes of the external collaborators — the LangChain agent call,
the Gemini enhancement call, and the two calls into the separate-module
negotiation engine (once in the main body, once inside
`_fallback_decision`) — are oracle parameters: `Except.error` models the
call raising, `Except.ok` a returned value.  Context preparation and
`_log_decision` cannot affect the returned dict.  The truthiness test
`if langchain_decision and ...` is subsumed by the confidence test: an
empty dict has no confidence key, so `.get("confidence", 0) > 0.6`
already fails.
-/

structure PyDecision where
  message : Option Str
  action_type : Option Str
  price_offer : Option (Option ℤ)
  confidence : Option ℚ
  reasoning : Option Str
  tactics_used : Option (List Str)
  next_steps : Option (List Str)
deriving DecidableEq

/-- Whether the dict carries all seven fields of the repository's own
`NegotiationResponse` model (enhanced_ai_service.py, lines 39-47). -/
def hasAllRequired (d : PyDecision) : Bool :=
  d.message.isSome && d.action_type.isSome && d.price_offer.isSome &&
    d.confidence.isSome && d.reasoning.isSome && d.tactics_used.isSome &&
    d.next_steps.isSome

/-- `_parse_agent_response` on a successfully extracted JSON dict: only
`message`, `action_type`, `confidence` and `reasoning` are filled with
defaults when absent (`_get_default_value`); `price_offer`,
`tactics_used` and `next_steps` are left as parsed. -/
def parseAgentResponse (parsed : PyDecision) : PyDecision :=
  { parsed with
    message := some (parsed.message.getD (lit "I need to review this further."))
    action_type := some (parsed.action_type.getD (lit "respond"))
    confidence := some (parsed.confidence.getD (3 / 4))
    reasoning := some (parsed.reasoning.getD (lit "Default response due to parsing issue")) }

structure GeminiEnhancement where
  message_enhancement : Option Str
  strategy_tips : Option (List Str)
  confidence_adjustment : Option ℚ

/-- `EnhancedAIService._merge_gemini_enhancement`. -/
def mergeGeminiEnhancement (base : PyDecision) (e : GeminiEnhancement) : PyDecision :=
  let d :=
    if (e.message_enhancement.getD []).isEmpty then base
    else { base with
           message := some (base.message.getD [] ++ lit " " ++
             (e.message_enhancement.getD []).take 100) }
  let d := { d with
             confidence := some (min 1 (max 0 (d.confidence.getD (7 / 10) +
               e.confidence_adjustment.getD 0))) }
  let d := { d with
             tactics_used := some (d.tactics_used.getD [] ++ (e.strategy_tips.getD []).take 2) }
  { d with reasoning := some (base.reasoning.getD [] ++ lit " Enhanced with Gemini insights.") }

structure MCPInsights where
  confidence : Option ℚ
  recommendations : Option (List Str)

/-- `EnhancedAIService._combine_with_mcp` (always called with `None`
insights in the current source, since MCP is disabled). -/
def combineWithMcp (base : PyDecision) (mcp : Option MCPInsights) : PyDecision :=
  match mcp with
  | none => base
  | some ins =>
    let d := { base with
               confidence := some ((base.confidence.getD (7 / 10) +
                 ins.confidence.getD (7 / 10)) / 2) }
    let d :=
      if (ins.recommendations.getD []).isEmpty then d
      else { d with
             next_steps := some (d.next_steps.getD [] ++
               (ins.recommendations.getD []).take 2) }
    { d with reasoning := some (base.reasoning.getD [] ++ lit " Informed by MCP analysis.") }

/-- The static dict returned when `_fallback_decision`'s own engine call
raises as well ("Ultimate fallback"). -/
def emergencyFallbackDecision : PyDecision :=
  { message := some (lit "I\x27m interested in this product. What\x27s your best price?")
    action_type := some (lit "question")
    price_offer := some none
    confidence := some (1 / 2)
    reasoning := some (lit "Emergency fallback response")
    tactics_used := some [lit "basic_inquiry"]
    next_steps := some [lit "await_seller_response"] }

/-- `EnhancedAIService._fallback_decision`: retries the negotiation engine
and normalises its dict, or returns the emergency fallback when that call
raises too. -/
def fallbackDecision (engineRetry : Except Unit PyDecision) : PyDecision :=
  match engineRetry with
  | Except.ok d =>
    { message :=
        some (d.message.getD (lit "I\x27m interested in this product. Can we discuss the price?"))
      action_type := some (d.action_type.getD (lit "question"))
      price_offer := some (d.price_offer.getD none)
      confidence := some (d.confidence.getD (6 / 10))
      reasoning := some (lit "Fallback negotiation engine")
      tactics_used := some [lit "traditional_negotiation"]
      next_steps := some [lit "await_seller_response"] }
  | Except.error _ => emergencyFallbackDecision

/-- The LangChain stage of `make_negotiation_decision`: the agent decision
is adopted only when the call succeeds and reports confidence above 0.6;
a raising call is swallowed and control falls through. -/
def langchainStage (useLangchain : Bool) (langchainCall : Except Unit PyDecision) :
    Option PyDecision :=
  if useLangchain then
    match langchainCall with
    | Except.ok d => if (6 : ℚ) / 10 < d.confidence.getD 0 then some d else none
    | Except.error _ => none
  else none

/-- `EnhancedAIService.make_negotiation_decision`. -/
def makeNegotiationDecision (useLangchain : Bool) (langchainCall : Except Unit PyDecision)
    (geminiConfigured : Bool) (geminiCall : Except Unit (Option GeminiEnhancement))
    (engineCall engineRetry : Except Unit PyDecision) : PyDecision :=
  match langchainStage useLangchain langchainCall with
  | some d => d
  | none =>
    match engineCall with
    | Except.error _ => fallbackDecision engineRetry
    | Except.ok engineDecision =>
      let enhanced :=
        if geminiConfigured then
          match geminiCall with
          | Except.ok (some e) => mergeGeminiEnhancement engineDecision e
          | Except.ok none => engineDecision
          | Except.error _ => engineDecision
        else engineDecision
      combineWithMcp enhanced none

/-- A decision the LangChain path can genuinely return: an agent JSON
carrying the four `_parse_agent_response` required fields and a 0.9
confidence, but no `price_offer`, `tactics_used` or `next_steps` keys. -/
def highConfidenceSparseDecision : PyDecision :=
  parseAgentResponse
    { message := some (lit "hi"), action_type := some (lit "offer"), price_offer := none
      confidence := some (9 / 10), reasoning := some (lit "r"), tactics_used := none
      next_steps := none }

/-- C2 counterexample: when the LangChain agent returns a well-formed
high-confidence dict that lacks `tactics_used`, `next_steps` and
`price_offer`, the orchestrator returns it unchanged, so the returned
decision does not contain all required fields. -/
theorem orchestrator_missing_fields_cex :
    makeNegotiationDecision true (Except.ok highConfidenceSparseDecision) false
        (Except.error ()) (Except.error ()) (Except.error ()) =
      highConfidenceSparseDecision ∧
      hasAllRequired highConfidenceSparseDecision = false := by
  constructor
  · have hconf : (6 : ℚ) / 10 < highConfidenceSparseDecision.confidence.getD 0 := by
      norm_num [highConfidenceSparseDecision, parseAgentResponse]
    simp [makeNegotiationDecision, langchainStage, hconf]
  · rfl

theorem hasAllRequired_merge (base : PyDecision) (e : GeminiEnhancement)
    (hb : hasAllRequired base = true) :
    hasAllRequired (mergeGeminiEnhancement base e) = true := by
  simp only [hasAllRequired, Bool.and_eq_true] at hb
  obtain ⟨⟨⟨⟨⟨⟨h1, h2⟩, h3⟩, h4⟩, h5⟩, h6⟩, h7⟩ := hb
  simp only [mergeGeminiEnhancement, hasAllRequired]
  split_ifs <;> simp_all

theorem hasAllRequired_fallback (engineRetry : Except Unit PyDecision) :
    hasAllRequired (fallbackDecision engineRetry) = true := by
  cases engineRetry <;>
    simp [fallbackDecision, emergencyFallbackDecision, hasAllRequired]

theorem langchainStage_eq_some {useLangchain : Bool} {langchainCall : Except Unit PyDecision}
    {d : PyDecision} (h : langchainStage useLangchain langchainCall = some d) :
    langchainCall = Except.ok d := by
  cases useLangchain with
  | false => simp [langchainStage] at h
  | true =>
    cases langchainCall with
    | error e => simp [langchainStage] at h
    | ok d0 =>
      by_cases hc : (6 : ℚ) / 10 < d0.confidence.getD 0
      · have hd : d0 = d := by simpa [langchainStage, hc] using h
        rw [hd]
      · simp [langchainStage, hc] at h

/-- C2 (amended): `make_negotiation_decision` never raises (every
collaborator outcome yields a returned dict); the returned dict carries
all seven required fields whenever the upstream decision it adopts (the
LangChain agent's, or the engine's) carries them — the orchestrator's own
fallback paths always produce all seven; and when the agent call, the
Gemini enhancement and both engine calls raise it returns exactly the
fixed emergency-fallback decision, with `action_type = "question"` and
`confidence = 0.5`. -/
theorem orchestrator_decision_fields (useLangchain : Bool)
    (langchainCall : Except Unit PyDecision) (geminiConfigured : Bool)
    (geminiCall : Except Unit (Option GeminiEnhancement))
    (engineCall engineRetry : Except Unit PyDecision)
    (hlc : ∀ d, langchainCall = Except.ok d → hasAllRequired d = true)
    (hen : ∀ d, engineCall = Except.ok d → hasAllRequired d = true) :
    hasAllRequired (makeNegotiationDecision useLangchain langchainCall geminiConfigured
        geminiCall engineCall engineRetry) = true ∧
      makeNegotiationDecision useLangchain (Except.error ()) geminiConfigured
          (Except.error ()) (Except.error ()) (Except.error ()) =
        emergencyFallbackDecision ∧
      emergencyFallbackDecision.action_type = some (lit "question") ∧
      emergencyFallbackDecision.confidence = some (1 / 2) := by
  refine ⟨?_, ?_, rfl, rfl⟩
  · cases hLT : langchainStage useLangchain langchainCall with
    | some d =>
      have hd := hlc d (langchainStage_eq_some hLT)
      simpa only [makeNegotiationDecision, hLT] using hd
    | none =>
      simp only [makeNegotiationDecision, hLT]
      cases hec : engineCall with
      | error e => exact hasAllRequired_fallback engineRetry
      | ok engineDecision =>
        have hed := hen engineDecision hec
        simp only [combineWithMcp]
        cases geminiConfigured with
        | false => exact hed
        | true =>
          cases geminiCall with
          | error e => exact hed
          | ok oe =>
            cases oe with
            | none => exact hed
            | some e => exact hasAllRequired_merge engineDecision e hed
  · cases useLangchain <;> rfl

theorem orchestrator_decision_fields_witness :
    hasAllRequired (makeNegotiationDecision true (Except.error ()) true (Except.error ())
        (Except.error ()) (Except.error ())) = true ∧
      makeNegotiationDecision true (Except.error ()) true (Except.error ()) (Except.error ())
          (Except.error ()) = emergencyFallbackDecision ∧
      emergencyFallbackDecision.action_type = some (lit "question") ∧
      emergencyFallbackDecision.confidence = some (1 / 2) :=
  orchestrator_decision_fields true (Except.error ()) true (Except.error ()) (Except.error ())
    (Except.error ()) (fun _d h => Except.noConfusion h) (fun _d h => Except.noConfusion h)
